import Mathlib

/-!
Shallow embedding of the pywarden repository (a Python wrapper around the
Bitwarden CLI) and verification of its specification claims.

The embedding models:
  * `pywarden/bitwarden/Bitwarden.py` — the `Bitwarden` session-client class:
    session-token extraction from subprocess stdout, login with password
    (retry/backoff), login with API key (environment-variable handling),
    unlock, sync, logout, and the export orchestration (`exportAll`,
    `exportPersonalVault`, `exportCollections`).
  * `pywarden/bitwarden/Types.py` — vault item variants and their `__eq__`.
  * `pywarden/app/bitwarden.py` — the authenticator factory `getAuthenticator`.

External subprocess invocations (`performCommandLineOperation`) are modelled
by oracles supplied as explicit parameters: an attempt's exit code and stdout,
the status string, the organization listing, and the per-target export exit
code. Python exceptions are modelled with `Except` over an explicit exception
type. Sleeps are recorded in milliseconds (the code sleeps `0.5 * n` seconds,
modelled as `500 * n` ms).
-/

namespace Pywarden

/-- Exceptions raised by the code.  `invalidState`, `invalidArguments` come
from `pywarden/common/Exceptions.py`; `noEncryptionPassword` and
`vaultNotUnlocked` from `pywarden/bitwarden/Exceptions.py`;
`pyValueError` models Python's built-in `ValueError` (raised by
`str.index` when the character is absent). -/
inductive PyExc where
  | invalidState
  | invalidArguments
  | noEncryptionPassword
  | vaultNotUnlocked
  | pyValueError
deriving DecidableEq, Repr

/-- Whether `pat` is an initial segment of `s` (character lists). -/
def startsWithSeq : List Char → List Char → Bool
  | [], _ => true
  | _ :: _, [] => false
  | p :: ps, c :: cs => p = c && startsWithSeq ps cs

/-- Python's `pat in s` substring test on character lists: `pat` occurs
somewhere in `s`. -/
def containsSeq (pat : List Char) : List Char → Bool
  | [] => startsWithSeq pat []
  | c :: cs => startsWithSeq pat (c :: cs) || containsSeq pat cs

/-- A line that the token-extraction loop reacts to:
`if(r'export' in line)` in `Bitwarden.__extractSessionFromStdOut__`. -/
def isExportLine (line : List Char) : Bool :=
  containsSeq "export".toList line

/-- Python's `content.split('\n')`: split a character list on newline
characters; splitting the empty string yields one empty piece. -/
def splitOnNewline : List Char → List (List Char)
  | [] => [[]]
  | c :: cs =>
    if c = '\n' then [] :: splitOnNewline cs
    else
      match splitOnNewline cs with
      | [] => [[c]]
      | h :: t => (c :: h) :: t

/-- `line.index('=')` — position of the first `'='`, `none` when absent
(Python raises `ValueError` then). -/
def eqSignIndex (line : List Char) : Option Nat :=
  line.findIdx? (fun c => c = '=')

/-- The token taken from one matching line, given the index of `'='`:
`session_raw = line[idx:]` followed by `session_raw[2:len(session_raw)-1]`
(drop the `=` and the character after it, and the final character). -/
def tokenOfLine (line : List Char) (idx : Nat) : List Char :=
  let session_raw := line.drop idx
  (session_raw.drop 2).dropLast

/-- Pack a character list back into a `String`. -/
def strOfChars (cs : List Char) : String :=
  String.mk cs

/-- The line-scanning loop of `__extractSessionFromStdOut__`, over the list of
lines.  Returns the session id after the scan together with a flag that is
`true` when a `ValueError` was raised (a matching line without `'='`);
assignments made by earlier matching lines survive such a raise. -/
def extractLines : Option String → List (List Char) → Option String × Bool
  | sess, [] => (sess, false)
  | sess, l :: ls =>
    if isExportLine l then
      match eqSignIndex l with
      | none => (sess, true)
      | some idx => extractLines (some (strOfChars (tokenOfLine l idx))) ls
    else
      extractLines sess ls

/-- `Bitwarden.__extractSessionFromStdOut__`: split stdout on newlines and
scan; the first component is the resulting `_bw_session_id`, the second is
the `ValueError` flag. -/
def extractSessionFromStdOut (sess : Option String) (stdout : String) :
    Option String × Bool :=
  extractLines sess (splitOnNewline stdout.toList)

instance {ε α : Type} [DecidableEq ε] [DecidableEq α] :
    DecidableEq (Except ε α) := fun x y =>
  match x, y with
  | .ok a, .ok b =>
    if h : a = b then .isTrue (by rw [h]) else .isFalse (by simp [h])
  | .error a, .error b =>
    if h : a = b then .isTrue (by rw [h]) else .isFalse (by simp [h])
  | .ok _, .error _ => .isFalse (by simp)
  | .error _, .ok _ => .isFalse (by simp)

/-- Oracle for one `loginWithPassword` call: the status string reported by
`bw status` before the loop, and for each (1-indexed) attempt the subprocess
exit code and stdout of `bw login <username> <password>`. -/
structure LoginEnv where
  statusStr : String
  attempt : Nat → Int × String

/-- Observable outcome of a `loginWithPassword` call: the returned value (or
the exception that propagated), how many times the login subprocess was
invoked, the sleeps performed (milliseconds, in order), and the final
`_bw_session_id`. -/
structure LoginOut where
  result : Except PyExc Bool
  calls : Nat
  sleeps : List Nat
  session : Option String
deriving DecidableEq, Repr

/-- The retry loop of `Bitwarden.loginWithPassword`, lines 173–186:
`number_retries` starts at `n`; `fuel` is the number of loop iterations left
(`retry_count - n + 1`).  On exit code 0 the session is extracted from
stdout, `ret_value` becomes true and `self.sync()` runs: `sync` raises
`VaultNotUnlockedException` when no session id was extracted, and its boolean
result is otherwise discarded.  On a non-zero exit code the loop sleeps
`0.5 * number_retries` seconds (`500 * n` ms) and retries. -/
def loginGo (env : LoginEnv) (sess : Option String) : Nat → Nat → LoginOut
  | _, 0 => { result := .ok false, calls := 0, sleeps := [], session := sess }
  | n, fuel + 1 =>
    let r := env.attempt n
    if r.1 = 0 then
      let e := extractSessionFromStdOut sess r.2
      if e.2 then
        { result := .error .pyValueError, calls := 1, sleeps := [], session := e.1 }
      else
        match e.1 with
        | none =>
          { result := .error .vaultNotUnlocked, calls := 1, sleeps := [], session := none }
        | some s =>
          { result := .ok true, calls := 1, sleeps := [], session := some s }
    else
      let rest := loginGo env sess (n + 1) fuel
      { result := rest.result, calls := rest.calls + 1,
        sleeps := 500 * n :: rest.sleeps, session := rest.session }

/-- `Bitwarden.loginWithPassword(username, password, retry_count)`: raises
`InvalidStateException` unless the reported status is `unauthenticated`,
then runs the retry loop starting at attempt 1. -/
def loginWithPassword (env : LoginEnv) (sess : Option String)
    (retry_count : Nat := 5) : LoginOut :=
  if env.statusStr ≠ "unauthenticated" then
    { result := .error .invalidState, calls := 0, sleeps := [], session := sess }
  else
    loginGo env sess 1 retry_count

/-- The two process-environment variables that `loginWithApiKey` manipulates
(`os.environ['BW_CLIENTID']`, `os.environ['BW_CLIENTSECRET']`); the code
touches no other environment entry in this call. -/
structure ProcEnvVars where
  bwClientId : Option String
  bwClientSecret : Option String
deriving DecidableEq, Repr

/-- Observable outcome of a `loginWithApiKey` call: returned value or
exception, number of login-subprocess invocations, sleeps (ms), the process
environment seen by each invocation (in order), and the environment after
the call returns. -/
structure ApiLoginOut where
  result : Except PyExc Bool
  calls : Nat
  sleeps : List Nat
  envTrace : List ProcEnvVars
  finalEnv : ProcEnvVars
deriving DecidableEq, Repr

/-- The retry loop of `Bitwarden.loginWithApiKey`, lines 218–228: same
shape as the password loop; `attempt n` is the exit code of the n-th
`bw login --apikey` invocation, which runs under the environment `penv`.
Returns (ret_value, number of invocations, sleeps, environment trace). -/
def apiLoginGo (attempt : Nat → Int) (penv : ProcEnvVars) :
    Nat → Nat → Bool × Nat × List Nat × List ProcEnvVars
  | _, 0 => (false, 0, [], [])
  | n, fuel + 1 =>
    if attempt n = 0 then
      (true, 1, [], [penv])
    else
      let rest := apiLoginGo attempt penv (n + 1) fuel
      (rest.1, rest.2.1 + 1, 500 * n :: rest.2.2.1, penv :: rest.2.2.2)

/-- `Bitwarden.loginWithApiKey(client_id, client_secret, retry_count)`:
raises `InvalidStateException` unless status is `unauthenticated`; sets
`BW_CLIENTID`/`BW_CLIENTSECRET` in the process environment, runs the retry
loop, then deletes both variables and returns the boolean outcome. -/
def loginWithApiKey (statusStr client_id client_secret : String)
    (attempt : Nat → Int) (penv : ProcEnvVars) (retry_count : Nat := 5) :
    ApiLoginOut :=
  if statusStr ≠ "unauthenticated" then
    { result := .error .invalidState, calls := 0, sleeps := [],
      envTrace := [], finalEnv := penv }
  else
    let penv1 : ProcEnvVars :=
      { bwClientId := some client_id, bwClientSecret := some client_secret }
    let r := apiLoginGo attempt penv1 1 retry_count
    { result := .ok r.1, calls := r.2.1, sleeps := r.2.2.1,
      envTrace := r.2.2.2,
      finalEnv := { bwClientId := none, bwClientSecret := none } }

/-- `Bitwarden.unlock(password)`: returns true at once when status is
`unlocked`; raises `InvalidStateException` when `unauthenticated`; otherwise
invokes `bw unlock` (exit code `code`, stdout `stdout`), extracting the
session from stdout on success.  Returns the outcome and the final
`_bw_session_id`. -/
def unlockFn (sess : Option String) (statusStr : String) (code : Int)
    (stdout : String) : Except PyExc Bool × Option String :=
  if statusStr = "unlocked" then (.ok true, sess)
  else if statusStr = "unauthenticated" then (.error .invalidState, sess)
  else if code = 0 then
    let e := extractSessionFromStdOut sess stdout
    if e.2 then (.error .pyValueError, e.1) else (.ok true, e.1)
  else (.ok false, sess)

/-- `Bitwarden.sync()`: raises `VaultNotUnlockedException` when no session id
is held; otherwise returns whether the sync subprocess exited 0. -/
def syncFn (sess : Option String) (code : Int) : Except PyExc Bool :=
  match sess with
  | none => .error .vaultNotUnlocked
  | some _ => if code = 0 then .ok true else .ok false

/-- `Bitwarden.logout()`: invokes the logout subprocess (result ignored) and
clears `_bw_session_id` unconditionally. -/
def logoutFn (_sess : Option String) : Option String := none

/-- `BitwardenOrganization` (`pywarden/bitwarden/Types.py`): fields parsed
from the CLI's JSON.  `otype` is the `type` field, the role as an integer
(`OrganizationUserTypes`: OWNER = 0, ADMIN = 1, USER = 2, MANAGER = 3,
CUSTOM = 4). -/
structure Org where
  oid : String
  name : String
  ostatus : Int
  otype : Int
  enabled : Bool
deriving DecidableEq, Repr

/-- `OrganizationUserTypes.OWNER.value` -/
def ownerType : Int := 0
/-- `OrganizationUserTypes.ADMIN.value` -/
def adminType : Int := 1

/-- One invocation of the `bw export` subprocess: the `--output` path and the
`--organizationid` argument (`none` for a personal-vault export). -/
structure ExportCall where
  path : String
  orgId : Option String
deriving DecidableEq, Repr

/-- Whether a format string passes the check
`format not in ['json', 'encrypted_json', 'csv']`. -/
def validFormat (format : String) : Bool :=
  format = "json" ∨ format = "encrypted_json" ∨ format = "csv"

/-- `Bitwarden.exportPersonalVault(path, format, encrypt_password)`:
requires a session id (returns false without one), validates the format,
requires an encryption password for `encrypted_json`, then invokes the
export subprocess; `exportOk none` is whether that subprocess exits 0.
Also returns the list of export subprocess invocations made. -/
def exportPersonalVault (sess : Option String) (exportOk : Option String → Bool)
    (path format : String) (encrypt_password : Option String) :
    Except PyExc Bool × List ExportCall :=
  match sess with
  | none => (.ok false, [])
  | some _ =>
    if ¬ validFormat format then (.error .invalidArguments, [])
    else if format = "encrypted_json" ∧ encrypt_password = none then
      (.error .noEncryptionPassword, [])
    else (.ok (exportOk none), [{ path := path, orgId := none }])

/-- `Bitwarden.exportCollections(path, organization_id, format,
encrypt_password)`: same validation as the personal export, scoped to one
organization id. -/
def exportCollections (sess : Option String) (exportOk : Option String → Bool)
    (path organization_id format : String) (encrypt_password : Option String) :
    Except PyExc Bool × List ExportCall :=
  match sess with
  | none => (.ok false, [])
  | some _ =>
    if ¬ validFormat format then (.error .invalidArguments, [])
    else if format = "encrypted_json" ∧ encrypt_password = none then
      (.error .noEncryptionPassword, [])
    else (.ok (exportOk (some organization_id)),
          [{ path := path, orgId := some organization_id }])

/-- Oracle for one `exportAll` call: whether the directory checks pass
(`os.path.exists` / `os.makedirs` / `os.path.isdir`), the `userEmail` field
of the status JSON, the timestamp string `now.strftime("%Y%m%d-%H%M")`,
the exit code of `bw list organizations` with the parsed organizations, and
the exit code (as a success flag) of each export subprocess by target. -/
structure ExportEnv where
  dirOk : Bool
  userEmail : String
  timeStr : String
  orgsCode : Int
  orgs : List Org
  exportOk : Option String → Bool

/-- The organization loop of `Bitwarden.exportAll`, lines 449–457: skip
organizations whose `type` is neither OWNER nor ADMIN; export each remaining
one to `<dir>/<email>-<orgName>-<timeStr>.<format>`, aborting on the first
failed or raising export. -/
def exportOrgsLoop (sess : Option String) (env : ExportEnv)
    (dir_path format : String) (encrypt_password : Option String) :
    List Org → Except PyExc Bool × List ExportCall
  | [] => (.ok true, [])
  | o :: os =>
    if ¬ (o.otype = ownerType ∨ o.otype = adminType) then
      exportOrgsLoop sess env dir_path format encrypt_password os
    else
      match exportCollections sess env.exportOk
          (dir_path ++ "/" ++ (env.userEmail ++ "-" ++ o.name ++ "-" ++
            env.timeStr ++ "." ++ format)) o.oid format
          encrypt_password with
      | (.error e, cs) => (.error e, cs)
      | (.ok false, cs) => (.ok false, cs)
      | (.ok true, cs) =>
        ((exportOrgsLoop sess env dir_path format encrypt_password os).1,
          cs ++
            (exportOrgsLoop sess env dir_path format encrypt_password os).2)

/-- `Bitwarden.exportAll(dir_path, format, encrypt_password)`: requires a
session id and a usable directory; exports the personal vault to
`<dir>/<email>-<timeStr>.<format>`, then (when `bw list organizations`
exits 0) runs the organization loop.  Returns the outcome and the ordered
list of export subprocess invocations. -/
def exportAll (sess : Option String) (env : ExportEnv)
    (dir_path format : String) (encrypt_password : Option String) :
    Except PyExc Bool × List ExportCall :=
  match sess with
  | none => (.ok false, [])
  | some _ =>
    if ¬ env.dirOk then (.ok false, [])
    else
      match exportPersonalVault sess env.exportOk
          (dir_path ++ "/" ++ (env.userEmail ++ "-" ++ env.timeStr ++ "." ++
            format)) format encrypt_password with
      | (.error e, cs) => (.error e, cs)
      | (.ok false, cs) => (.ok false, cs)
      | (.ok true, cs) =>
        (( exportOrgsLoop sess env dir_path format encrypt_password
            (if env.orgsCode = 0 then env.orgs else [])).1,
          cs ++ (exportOrgsLoop sess env dir_path format encrypt_password
            (if env.orgsCode = 0 then env.orgs else [])).2)

/-- Common attributes of `BitwardenItem` (`pywarden/bitwarden/Types.py`):
`id`, `folderId`, `name`, `notes` as parsed from the CLI's JSON (`folderId`
and `notes` may be JSON null). -/
structure ItemBase where
  iid : String
  folderId : Option String
  name : String
  notes : Option String
deriving DecidableEq, Repr

/-- `BitwardenItem.__eq__` (against a non-None other): compares only `name`
and `notes`. -/
def itemBaseEq (a b : ItemBase) : Bool :=
  a.name = b.name ∧ a.notes = b.notes

/-- `BitwardenLogin`: common attributes plus `username`, `password`, `totp`
from the record's `login` object. -/
structure LoginItem where
  base : ItemBase
  username : Option String
  password : Option String
  totp : Option String
deriving DecidableEq, Repr

/-- `BitwardenLogin.__eq__`: the base comparison plus `username`, `password`,
`totp`. -/
def loginItemEq (a b : LoginItem) : Bool :=
  itemBaseEq a.base b.base ∧ a.username = b.username ∧
    a.password = b.password ∧ a.totp = b.totp

/-- `BitwardenCard`: common attributes plus the six fields of the record's
`card` object. -/
structure CardItem where
  base : ItemBase
  holder_name : Option String
  brand : Option String
  number : Option String
  month : Option String
  year : Option String
  code : Option String
deriving DecidableEq, Repr

/-- `BitwardenCard.__eq__`: the base comparison plus the six card fields. -/
def cardItemEq (a b : CardItem) : Bool :=
  itemBaseEq a.base b.base ∧ a.holder_name = b.holder_name ∧
    a.brand = b.brand ∧ a.number = b.number ∧ a.month = b.month ∧
    a.year = b.year ∧ a.code = b.code

/-- `BitwardenNote`: only the common attributes; `__eq__` is inherited from
`BitwardenItem` unchanged. -/
structure NoteItem where
  base : ItemBase
deriving DecidableEq, Repr

/-- Equality used for `BitwardenNote` values: the inherited
`BitwardenItem.__eq__`. -/
def noteItemEq (a b : NoteItem) : Bool :=
  itemBaseEq a.base b.base

/-- An account entry of the backup configuration
(`pywarden/app/bitwarden.py`): a JSON object; `client_id`/`client_secret`
model dictionary-key presence (`none` = key absent, `some v` = key present
with string value `v`, possibly empty). -/
structure AcctConfig where
  email : String
  client_id : Option String
  client_secret : Option String
  format : Option String
deriving DecidableEq, Repr

/-- The two authenticator classes of `pywarden/app/bitwarden.py`. -/
inductive AuthKind where
  | apiKey
  | password
deriving DecidableEq, Repr

/-- `getAuthenticator(acct_config, ...)`: chooses
`BitwardenApiKeyAuthenticator` when both the `client_id` and `client_secret`
keys are present in the account configuration, else
`BitwardenPasswordAuthenticator`. -/
def getAuthenticator (c : AcctConfig) : AuthKind :=
  if c.client_id.isSome ∧ c.client_secret.isSome then .apiKey else .password

/-- The mutable instance state of a `Bitwarden` object: `self._serverUrl`
and `self._bw_session_id` (`self._bw_app_location` is set once in
`__init__` and never read back into the model's observables). -/
structure BitwardenState where
  serverUrl : Option String
  session : Option String
deriving DecidableEq, Repr

/-- The state after `Bitwarden.__init__`: `_serverUrl = None`,
`_bw_session_id = None`.  The constructor may then invoke the `serverUrl`
setter, which only runs the `config server` subprocess and assigns neither
field. -/
def initState : BitwardenState :=
  { serverUrl := none, session := none }

/-- One public operation on a `Bitwarden` instance, bundled with the oracle
data for the subprocess calls it makes. -/
inductive BwOp where
  | setUrl (statusStr url : String)
  | statusOp
  | isClientLatestOp
  | loginPw (env : LoginEnv) (retry : Nat)
  | loginApi (statusStr cid csec : String) (attempt : Nat → Int) (retry : Nat)
  | logoutOp
  | unlockOp (statusStr : String) (code : Int) (stdout : String)
  | lockOp
  | syncOp (code : Int)
  | itemsOp
  | getItemOp (name : String)
  | orgsOp
  | collectionsOp
  | exportAllOp (env : ExportEnv) (dir format : String) (pw : Option String)
  | exportPersonalOp (ok : Option String → Bool) (path format : String)
      (pw : Option String)
  | exportCollectionsOp (ok : Option String → Bool) (path oid format : String)
      (pw : Option String)

/-- Effect of each operation on the instance state, per the source: only
`loginWithPassword`/`unlock` (via `__extractSessionFromStdOut__`) and
`logout` assign `_bw_session_id`; no method assigns `_serverUrl` (the
`serverUrl` setter only invokes `bw config server`). -/
def applyOp (st : BitwardenState) (op : BwOp) : BitwardenState :=
  match op with
  | .setUrl _ _ => st
  | .statusOp => st
  | .isClientLatestOp => st
  | .loginPw env retry =>
    { st with session := (loginWithPassword env st.session retry).session }
  | .loginApi _ _ _ _ _ => st
  | .logoutOp => { st with session := logoutFn st.session }
  | .unlockOp statusStr code stdout =>
    { st with session := (unlockFn st.session statusStr code stdout).2 }
  | .lockOp => st
  | .syncOp _ => st
  | .itemsOp => st
  | .getItemOp _ => st
  | .orgsOp => st
  | .collectionsOp => st
  | .exportAllOp _ _ _ _ => st
  | .exportPersonalOp _ _ _ _ => st
  | .exportCollectionsOp _ _ _ _ _ => st

/-- Modelled from the spec's words for comparison (claim C4): "the API-key
variant iff both `clientId` and `clientSecret` are non-empty in `C`" — an
absent key counts as empty. -/
def selectAuthenticatorSpec (c : AcctConfig) : AuthKind :=
  if c.client_id.getD "" ≠ "" ∧ c.client_secret.getD "" ≠ "" then .apiKey
  else .password

/-- Modelled from the spec's words for comparison (claim C2): take the
FIRST line containing `export`, locate the `=` character, take the
substring after it and strip a leading and a trailing quote character. -/
def extractSessionSpecFirst (sess : Option String) (stdout : String) :
    Option String :=
  match (splitOnNewline stdout.toList).find? isExportLine with
  | none => sess
  | some l =>
    match eqSignIndex l with
    | some idx => some (strOfChars (((l.drop (idx + 1)).drop 1).dropLast))
    | none => sess

/-- The token the scan actually yields: the one of the LAST line containing
`export` (when every such line carries an `=`), the prior session id when
there is none. -/
def lastExportToken (sess : Option String) (lines : List (List Char)) :
    Option String :=
  match (lines.filter isExportLine).getLast? with
  | none => sess
  | some l =>
    match eqSignIndex l with
    | some idx => some (strOfChars (tokenOfLine l idx))
    | none => sess

/-- Whether `suf` is a final segment of `s`. -/
def endsWithStr (suf s : String) : Bool :=
  startsWithSeq suf.toList.reverse s.toList.reverse

/-- C4 — counterexample: an account configuration that carries the
`client_id` and `client_secret` keys with empty-string values.  The code's
`getAuthenticator` tests key presence only and picks the API-key variant,
while the claim's non-emptiness rule picks the password variant. -/
theorem C4_counterexample :
    getAuthenticator
        { email := "alice@example.com", client_id := some "",
          client_secret := some "", format := none } = .apiKey ∧
      selectAuthenticatorSpec
        { email := "alice@example.com", client_id := some "",
          client_secret := some "", format := none } = .password := by
  decide

/-- C4 (amended) — `getAuthenticator` returns the API-key variant iff both
the `client_id` and the `client_secret` keys are present in the account
configuration (their values may be empty); otherwise the password variant. -/
theorem C4_selection (c : AcctConfig) :
    getAuthenticator c = .apiKey ↔
      (c.client_id.isSome ∧ c.client_secret.isSome) := by
  unfold getAuthenticator
  split
  · simp_all
  · simp_all

/-- C8 — counterexample: two Login items that agree on every field except
the item `id` (and they could equally differ on `folderId`): the code's
`__eq__` chain compares only `name`, `notes`, `username`, `password`,
`totp`, so it reports them equal although not all fields of the variant
match. -/
theorem C8_counterexample :
    loginItemEq
        { base := { iid := "id-1", folderId := none, name := "gmail",
                    notes := none },
          username := some "u", password := some "p", totp := none }
        { base := { iid := "id-2", folderId := none, name := "gmail",
                    notes := none },
          username := some "u", password := some "p", totp := none } = true ∧
      ({ base := { iid := "id-1", folderId := none, name := "gmail",
                   notes := none },
         username := some "u", password := some "p", totp := none } :
        LoginItem) ≠
        { base := { iid := "id-2", folderId := none, name := "gmail",
                    notes := none },
          username := some "u", password := some "p", totp := none } := by
  decide

/-- C8 (amended) — item equality is structural over `name`, `notes` and the
variant-specific fields only: `id` and `folderId` are not compared.  For
Logins the compared fields are name, notes, username, password, totp; for
Cards name, notes and the six card fields; for Notes name and notes. -/
theorem C8_structural_eq :
    (∀ a b : LoginItem, loginItemEq a b = true ↔
      (a.base.name = b.base.name ∧ a.base.notes = b.base.notes ∧
        a.username = b.username ∧ a.password = b.password ∧
        a.totp = b.totp)) ∧
    (∀ a b : CardItem, cardItemEq a b = true ↔
      (a.base.name = b.base.name ∧ a.base.notes = b.base.notes ∧
        a.holder_name = b.holder_name ∧ a.brand = b.brand ∧
        a.number = b.number ∧ a.month = b.month ∧ a.year = b.year ∧
        a.code = b.code)) ∧
    (∀ a b : NoteItem, noteItemEq a b = true ↔
      (a.base.name = b.base.name ∧ a.base.notes = b.base.notes)) := by
  refine ⟨fun a b => ?_, fun a b => ?_, fun a b => ?_⟩ <;>
    simp [loginItemEq, cardItemEq, noteItemEq, itemBaseEq, and_assoc]

/-- C10 — in every reachable state of a `Bitwarden` instance the
`_serverUrl` field is `None`: it is initialized to `None` and no operation
(the `serverUrl` setter included, which only runs `bw config server`)
assigns it, so the `serverUrl` property always reads `None`. -/
theorem C10_serverUrl_always_none (ops : List BwOp) :
    (ops.foldl applyOp initState).serverUrl = none := by
  suffices h : ∀ st : BitwardenState,
      (ops.foldl applyOp st).serverUrl = st.serverUrl by
    exact h initState
  induction ops with
  | nil => intro st; rfl
  | cons op ops ih =>
    intro st
    rw [List.foldl_cons, ih]
    cases op <;> rfl

/-- C5 — counterexample: with no session token held,
`exportPersonalVault(path, "xml")` returns `False` (the session check at the
top of the method fires first) instead of raising
`InvalidArgumentsException` as the claim demands for every session state. -/
theorem C5_counterexample :
    (exportPersonalVault none (fun _ => true) "/backups/out.xml" "xml"
        none).1 = .ok false ∧
      (Except.ok false : Except PyExc Bool) ≠ .error .invalidArguments := by
  constructor
  · rfl
  · decide

/-- C5 (amended) — `exportPersonalVault` with a format outside
`{json, csv, encrypted_json}` (e.g. `"xml"`) raises
`InvalidArgumentsException` whenever a session token is held, for every
path; with no session token it returns `False` without raising. -/
theorem C5_invalid_format (sess : Option String)
    (ok : Option String → Bool) (path format : String) (pw : Option String)
    (hfmt : validFormat format = false) :
    (∀ s, sess = some s →
      (exportPersonalVault sess ok path format pw).1 =
        .error .invalidArguments) ∧
    (sess = none →
      (exportPersonalVault sess ok path format pw).1 = .ok false) := by
  constructor
  · intro s hs
    subst hs
    simp [exportPersonalVault, hfmt]
  · intro hs
    subst hs
    rfl

/-- C5 witness: concrete run of the amended theorem with a session token
held and format `"xml"`. -/
theorem C5_witness :
    (exportPersonalVault (some "tok") (fun _ => true) "/backups/out.xml"
        "xml" none).1 = .error .invalidArguments := by
  exact (C5_invalid_format (some "tok") (fun _ => true) "/backups/out.xml"
    "xml" none (by decide)).1 "tok" rfl

lemma extractLines_no_export (sess : Option String) :
    ∀ ls : List (List Char), (∀ l ∈ ls, isExportLine l = false) →
    extractLines sess ls = (sess, false) := by
  intro ls
  induction ls with
  | nil => intro _; rfl
  | cons l ls ih =>
    intro h
    have hl := h l (by simp)
    have hstep : extractLines sess (l :: ls) = extractLines sess ls := by
      simp [extractLines, hl]
    rw [hstep]
    exact ih (fun x hx => h x (by simp [hx]))

lemma eqSignIndex_boundary (rest : List Char) :
    ∀ p : List Char, '=' ∉ p →
      eqSignIndex (p ++ '=' :: rest) = some p.length := by
  intro p
  induction p with
  | nil =>
    intro _
    simp [eqSignIndex, List.findIdx?_cons]
  | cons c p ih =>
    intro hp
    have hc : ¬(c = '=') := fun h => hp (by simp [h])
    have ihp : eqSignIndex (p ++ '=' :: rest) = some p.length :=
      ih (fun h => hp (List.mem_cons_of_mem _ h))
    simp only [eqSignIndex] at ihp ⊢
    rw [List.cons_append, List.findIdx?_cons, if_neg (by simpa using hc),
      List.findIdx?_succ, ihp]
    simp

lemma tokenOfLine_quoted (p t : List Char) :
    tokenOfLine (p ++ '=' :: '"' :: (t ++ ['"'])) p.length = t := by
  show (((p ++ '=' :: '"' :: (t ++ ['"'])).drop p.length).drop 2).dropLast
    = t
  rw [List.drop_left]
  exact List.dropLast_concat

lemma mem_of_getLast?_eq_some {α : Type} {l : List α} {a : α}
    (h : l.getLast? = some a) : a ∈ l := by
  have h' : a ∈ l.getLast? := by
    rw [h]
    exact Option.mem_some_iff.mpr rfl
  obtain ⟨hh, rfl⟩ := List.mem_getLast?_eq_getLast h'
  exact List.getLast_mem hh

lemma extractLines_last (ls : List (List Char)) : ∀ sess : Option String,
    (∀ l ∈ ls, isExportLine l = true → (eqSignIndex l).isSome) →
    extractLines sess ls = (lastExportToken sess ls, false) := by
  induction ls with
  | nil => intro sess _; rfl
  | cons l ls ih =>
    intro sess h
    by_cases hl : isExportLine l
    · obtain ⟨idx, hix⟩ :=
        Option.isSome_iff_exists.mp (h l (by simp) hl)
      have hstep : extractLines sess (l :: ls) =
          extractLines (some (strOfChars (tokenOfLine l idx))) ls := by
        simp [extractLines, hl, hix]
      rw [hstep, ih _ (fun x hx hex => h x (by simp [hx]) hex)]
      congr 1
      unfold lastExportToken
      rw [List.filter_cons_of_pos hl]
      cases hfl : (ls.filter isExportLine).getLast? with
      | none =>
        rw [List.getLast?_cons, hfl]
        simp [hix]
      | some y =>
        have hyf : y ∈ ls.filter isExportLine := mem_of_getLast?_eq_some hfl
        obtain ⟨idy, hiy⟩ := Option.isSome_iff_exists.mp
          (h y (List.mem_cons_of_mem _ (List.mem_of_mem_filter hyf))
            (List.of_mem_filter hyf))
        rw [List.getLast?_cons, hfl]
        simp [hiy]
    · have hl' : isExportLine l = false := by
        simpa using hl
      have hstep : extractLines sess (l :: ls) = extractLines sess ls := by
        simp [extractLines, hl']
      rw [hstep, ih _ (fun x hx hex => h x (by simp [hx]) hex)]
      congr 1
      unfold lastExportToken
      rw [List.filter_cons_of_neg (by simp [hl'])]

/-- C2 (amended) — the token extractor scans stdout line by line; every
line containing the substring `export` overwrites the stored token with
that line's value, so the token yielded comes from the LAST such line, not
the first.  Three parts: (1) the scan yields the last `export`-bearing
line's token; (2) if no line contains `export`, the stored session token is
left unchanged (unset stays unset); (3) on a line of the shape
`<text>="<token>"` whose first `=` starts the quoted value, the extracted
value is exactly `<token>` — the substring after the `=` with one leading
and one trailing quote character stripped. -/
theorem C2_token_extraction (sess : Option String) (stdout : String)
    (h : ∀ l ∈ splitOnNewline stdout.toList,
      isExportLine l = true → (eqSignIndex l).isSome) :
    (extractSessionFromStdOut sess stdout =
      (lastExportToken sess (splitOnNewline stdout.toList), false)) ∧
    ((∀ l ∈ splitOnNewline stdout.toList, isExportLine l = false) →
      extractSessionFromStdOut sess stdout = (sess, false)) ∧
    (∀ p t : List Char, '=' ∉ p →
      eqSignIndex (p ++ '=' :: '"' :: (t ++ ['"'])) = some p.length ∧
        tokenOfLine (p ++ '=' :: '"' :: (t ++ ['"'])) p.length = t) :=
  ⟨extractLines_last (splitOnNewline stdout.toList) sess h,
   fun hno => extractLines_no_export sess _ hno,
   fun p t hp => ⟨eqSignIndex_boundary _ p hp, tokenOfLine_quoted p t⟩⟩

/-- C2 witness: the spec's own example output — the line
`$ export BW_SESSION="abc123"` — yields the token `abc123`; it is the only
`export`-bearing line of the sample. -/
theorem C2_token_extraction_witness :
    extractSessionFromStdOut none
        "Your vault is now unlocked!\n\nTo unlock your vault, set your session key to the BW_SESSION environment variable. ex:\n$ export BW_SESSION=\"abc123\"\n\nYou can also pass the session key to any command with the --session option." =
      (some "abc123", false) := by
  have h := (C2_token_extraction none
    "Your vault is now unlocked!\n\nTo unlock your vault, set your session key to the BW_SESSION environment variable. ex:\n$ export BW_SESSION=\"abc123\"\n\nYou can also pass the session key to any command with the --session option."
    (by decide)).1
  rw [h]
  decide

/-- C2 — counterexample: stdout with two `export`-bearing lines.  The code
returns the token of the second (last) line, while the claim's
first-line algorithm yields the token of the first; the two disagree. -/
theorem C2_counterexample :
    extractSessionFromStdOut none
        "$ export FIRST=\"x\"\n$ export SECOND=\"y\"" = (some "y", false) ∧
      extractSessionSpecFirst none
        "$ export FIRST=\"x\"\n$ export SECOND=\"y\"" = some "x" ∧
      (some "y" : Option String) ≠ some "x" := by
  decide

lemma loginGo_fail_step (env : LoginEnv) (sess : Option String)
    (n fuel : Nat) (h : (env.attempt n).1 ≠ 0) :
    loginGo env sess n (fuel + 1) =
      { result := (loginGo env sess (n + 1) fuel).result,
        calls := (loginGo env sess (n + 1) fuel).calls + 1,
        sleeps := 500 * n :: (loginGo env sess (n + 1) fuel).sleeps,
        session := (loginGo env sess (n + 1) fuel).session } := by
  simp only [loginGo]
  rw [if_neg h]

lemma sleeps_shift (n fuel : Nat) :
    500 * n :: (List.range fuel).map (fun i => 500 * (n + 1 + i)) =
      (List.range (fuel + 1)).map (fun i => 500 * (n + i)) := by
  simp only [List.range_succ_eq_map, List.map_cons, List.map_map,
    Nat.add_zero]
  exact congrArg (List.cons (500 * n))
    (List.map_congr_left (fun i _ => by
      simp only [Function.comp_apply]
      omega))

lemma loginGo_all_fail (env : LoginEnv) (sess : Option String)
    (hfail : ∀ n, (env.attempt n).1 ≠ 0) :
    ∀ fuel n : Nat, loginGo env sess n fuel =
      { result := .ok false, calls := fuel,
        sleeps := (List.range fuel).map (fun i => 500 * (n + i)),
        session := sess } := by
  intro fuel
  induction fuel with
  | zero => intro n; rfl
  | succ fuel ih =>
    intro n
    rw [loginGo_fail_step env sess n fuel (hfail n), ih (n + 1)]
    simp only []
    rw [sleeps_shift]

lemma loginGo_shift (env : LoginEnv) (sess : Option String) :
    ∀ j n fuel : Nat, (∀ i, i < j → (env.attempt (n + i)).1 ≠ 0) →
      j ≤ fuel →
      (loginGo env sess n fuel).result =
          (loginGo env sess (n + j) (fuel - j)).result ∧
        (loginGo env sess n fuel).session =
          (loginGo env sess (n + j) (fuel - j)).session := by
  intro j
  induction j with
  | zero => intro n fuel _ _; simp
  | succ j ih =>
    intro n fuel hf hle
    obtain ⟨fuel', rfl⟩ : ∃ f', fuel = f' + 1 := ⟨fuel - 1, by omega⟩
    have h0 : (env.attempt n).1 ≠ 0 := by simpa using hf 0 (by omega)
    rw [loginGo_fail_step env sess n fuel' h0]
    have harg : n + (j + 1) = (n + 1) + j := by omega
    have hfuel : fuel' + 1 - (j + 1) = fuel' - j := by omega
    rw [harg, hfuel]
    exact ih (n + 1) fuel'
      (fun i hi => by
        have h := hf (i + 1) (by omega)
        have e : n + (i + 1) = n + 1 + i := by omega
        rw [e] at h
        exact h)
      (by omega)

/-- C3 — retry policy of `loginWithPassword`: with `maxAttempts = 3`,
status `unauthenticated`, attempts 1 and 2 failing and attempt 3 succeeding
(with a token in its stdout), the login subprocess runs exactly 3 times,
the sleeps are 500 ms then 1000 ms (0.5 s and 1.0 s), and the call returns
true.  In general, when every attempt fails, `maxAttempts` attempts are
made, each followed by a sleep of `500 * attemptNumber` ms (numbering from
1), and false is returned. -/
theorem C3_retry_policy (env : LoginEnv) (sess : Option String) (t : String)
    (hst : env.statusStr = "unauthenticated")
    (h1 : (env.attempt 1).1 ≠ 0) (h2 : (env.attempt 2).1 ≠ 0)
    (h3 : (env.attempt 3).1 = 0)
    (hex : extractSessionFromStdOut sess (env.attempt 3).2 =
      (some t, false)) :
    ((loginWithPassword env sess 3).calls = 3 ∧
      (loginWithPassword env sess 3).sleeps = [500, 1000] ∧
      (loginWithPassword env sess 3).result = .ok true) ∧
    ∀ (env' : LoginEnv) (sess' : Option String) (k : Nat),
      env'.statusStr = "unauthenticated" →
      (∀ n, (env'.attempt n).1 ≠ 0) →
      (loginWithPassword env' sess' k).result = .ok false ∧
        (loginWithPassword env' sess' k).calls = k ∧
        (loginWithPassword env' sess' k).sleeps =
          (List.range k).map (fun i => 500 * (i + 1)) := by
  constructor
  · have e3 : loginGo env sess 3 1 =
        { result := .ok true, calls := 1, sleeps := [], session := some t } := by
      simp only [loginGo]
      rw [if_pos h3, hex]
      simp
    have e2 : loginGo env sess 2 2 =
        { result := .ok true, calls := 2, sleeps := [1000],
          session := some t } := by
      rw [loginGo_fail_step env sess 2 1 h2, e3]
    have e1 : loginGo env sess 1 3 =
        { result := .ok true, calls := 3, sleeps := [500, 1000],
          session := some t } := by
      rw [loginGo_fail_step env sess 1 2 h1, e2]
    unfold loginWithPassword
    rw [if_neg (by simp [hst]), e1]
    exact ⟨rfl, rfl, rfl⟩
  · intro env' sess' k hst' hfail'
    unfold loginWithPassword
    rw [if_neg (by simp [hst']), loginGo_all_fail env' sess' hfail' k 1]
    refine ⟨rfl, rfl, ?_⟩
    exact List.map_congr_left (fun i _ => by omega)

/-- C3 witness: a concrete attempt oracle failing twice then succeeding
with stdout `export BW_SESSION="tok"`. -/
theorem C3_retry_policy_witness :
    ((loginWithPassword
        ⟨"unauthenticated",
          fun n => if n = 3 then ((0 : Int), "$ export BW_SESSION=\"tok\"")
            else ((1 : Int), "")⟩ none 3).calls = 3 ∧
      (loginWithPassword
        ⟨"unauthenticated",
          fun n => if n = 3 then ((0 : Int), "$ export BW_SESSION=\"tok\"")
            else ((1 : Int), "")⟩ none 3).sleeps = [500, 1000] ∧
      (loginWithPassword
        ⟨"unauthenticated",
          fun n => if n = 3 then ((0 : Int), "$ export BW_SESSION=\"tok\"")
            else ((1 : Int), "")⟩ none 3).result = .ok true) :=
  (C3_retry_policy
    ⟨"unauthenticated",
      fun n => if n = 3 then ((0 : Int), "$ export BW_SESSION=\"tok\"")
        else ((1 : Int), "")⟩ none "tok" rfl (by decide) (by decide)
    (by decide) (by decide)).1

/-- C9 — when the first succeeding `loginWithPassword` attempt (attempt `k`,
after `k - 1` failures) exits 0 but its stdout contains no line with the
substring `export`, no session token is extracted; the `sync()` call made on
the success path then raises `VaultNotUnlockedException`, which propagates
out of `loginWithPassword`, and the session token stays unset. -/
theorem C9_sync_raises_without_token (env : LoginEnv) (k retry : Nat)
    (hst : env.statusStr = "unauthenticated")
    (hk1 : 1 ≤ k) (hkr : k ≤ retry)
    (hfail : ∀ n, 1 ≤ n → n < k → (env.attempt n).1 ≠ 0)
    (hcode : (env.attempt k).1 = 0)
    (hnoexp : ∀ l ∈ splitOnNewline (env.attempt k).2.toList,
      isExportLine l = false) :
    (loginWithPassword env none retry).result = .error .vaultNotUnlocked ∧
      (loginWithPassword env none retry).session = none := by
  unfold loginWithPassword
  rw [if_neg (by simp [hst])]
  have hshift := loginGo_shift env none (k - 1) 1 retry
    (fun i hi => hfail (1 + i) (by omega) (by omega)) (by omega)
  have hk' : 1 + (k - 1) = k := by omega
  have hr : retry - (k - 1) = (retry - k) + 1 := by omega
  rw [hk', hr] at hshift
  have hex : extractSessionFromStdOut none (env.attempt k).2 =
      (none, false) := extractLines_no_export none _ hnoexp
  have hsucc : loginGo env none k ((retry - k) + 1) =
      { result := .error .vaultNotUnlocked, calls := 1, sleeps := [],
        session := none } := by
    simp only [loginGo]
    rw [if_pos hcode, hex]
    simp
  rw [hsucc] at hshift
  exact hshift

/-- C9 witness: a subprocess succeeding on attempt 1 with stdout that has
no `export` line. -/
theorem C9_sync_raises_without_token_witness :
    (loginWithPassword
        ⟨"unauthenticated", fun _ => ((0 : Int), "You are logged in!")⟩
        none 5).result = .error .vaultNotUnlocked :=
  (C9_sync_raises_without_token
    ⟨"unauthenticated", fun _ => ((0 : Int), "You are logged in!")⟩ 1 5 rfl
    (by decide) (by decide) (fun n h1 h2 => absurd (Nat.lt_of_lt_of_le h2 h1)
      (by omega))
    (by decide) (by decide)).1

lemma apiLoginGo_env (attempt : Nat → Int) (penv : ProcEnvVars) :
    ∀ fuel n : Nat,
      (∀ e ∈ (apiLoginGo attempt penv n fuel).2.2.2, e = penv) ∧
        (apiLoginGo attempt penv n fuel).2.2.2.length =
          (apiLoginGo attempt penv n fuel).2.1 := by
  intro fuel
  induction fuel with
  | zero => intro n; exact ⟨by simp [apiLoginGo], rfl⟩
  | succ fuel ih =>
    intro n
    by_cases h : attempt n = 0
    · constructor
      · intro e he
        simp only [apiLoginGo, if_pos h] at he
        simpa using he
      · simp [apiLoginGo, if_pos h]
    · have hstep : apiLoginGo attempt penv n (fuel + 1) =
          (let rest := apiLoginGo attempt penv (n + 1) fuel;
            (rest.1, rest.2.1 + 1, 500 * n :: rest.2.2.1,
              penv :: rest.2.2.2)) := by
        simp only [apiLoginGo]
        rw [if_neg h]
      rw [hstep]
      constructor
      · intro e he
        simp only [] at he
        rcases (List.mem_cons).mp he with h1 | h2
        · exact h1
        · exact (ih (n + 1)).1 e h2
      · simp only [List.length_cons]
        rw [(ih (n + 1)).2]

/-- C7 — `loginWithApiKey` starting from status `Unauthenticated` with
`BW_CLIENTID`/`BW_CLIENTSECRET` initially absent: both variables are set in
the process environment before every login-subprocess invocation (the
trace covers each attempt) and are deleted again by the time the call
returns, on the success and the failure outcome alike, so the environment
after the call equals the environment before it. -/
theorem C7_apikey_env_scoped (statusStr cid csec : String)
    (attempt : Nat → Int) (penv : ProcEnvVars) (retry : Nat)
    (hst : statusStr = "unauthenticated")
    (hid : penv.bwClientId = none) (hsec : penv.bwClientSecret = none) :
    (loginWithApiKey statusStr cid csec attempt penv retry).finalEnv =
        penv ∧
      (∀ e ∈ (loginWithApiKey statusStr cid csec attempt penv
          retry).envTrace,
        e.bwClientId = some cid ∧ e.bwClientSecret = some csec) ∧
      (loginWithApiKey statusStr cid csec attempt penv retry).envTrace.length
        = (loginWithApiKey statusStr cid csec attempt penv retry).calls := by
  unfold loginWithApiKey
  rw [if_neg (by simp [hst])]
  refine ⟨?_, ?_, ?_⟩
  · cases penv with
    | mk a b =>
      simp only [] at hid hsec
      rw [hid, hsec]
  · intro e he
    simp only [] at he
    have := (apiLoginGo_env attempt
      { bwClientId := some cid, bwClientSecret := some csec } retry 1).1 e he
    rw [this]
    exact ⟨rfl, rfl⟩
  · exact (apiLoginGo_env attempt
      { bwClientId := some cid, bwClientSecret := some csec } retry 1).2

/-- C7 witness: a concrete failing run (two attempts, both non-zero exit)
still restores the environment. -/
theorem C7_apikey_env_scoped_witness :
    (loginWithApiKey "unauthenticated" "cid-1" "sec-1" (fun _ => (1 : Int))
        { bwClientId := none, bwClientSecret := none } 2).finalEnv =
      { bwClientId := none, bwClientSecret := none } :=
  (C7_apikey_env_scoped "unauthenticated" "cid-1" "sec-1" (fun _ => (1 : Int))
    { bwClientId := none, bwClientSecret := none } 2 rfl rfl rfl).1

lemma exportOrgsLoop_all_ok (s : String) (env : ExportEnv)
    (dir_path format : String) (pw : Option String)
    (hfmt : validFormat format = true)
    (hpw : ¬ (format = "encrypted_json" ∧ pw = none))
    (hok : ∀ t, env.exportOk t = true) :
    ∀ os : List Org,
      exportOrgsLoop (some s) env dir_path format pw os =
        (.ok true,
          (os.filter
              (fun o => o.otype = ownerType ∨ o.otype = adminType)).map
            (fun o =>
              { path := dir_path ++ "/" ++ (env.userEmail ++ "-" ++ o.name ++
                  "-" ++ env.timeStr ++ "." ++ format),
                orgId := some o.oid })) := by
  intro os
  induction os with
  | nil => rfl
  | cons o os ih =>
    by_cases hrole : o.otype = ownerType ∨ o.otype = adminType
    · simp [exportOrgsLoop, exportCollections, hrole, hfmt, hpw, hok, ih]
    · simp [exportOrgsLoop, hrole, ih]

/-- C1 — export-target selection of `exportAll`: with a session token set,
a usable directory, the organization listing succeeding, a valid format and
(for `encrypted_json`) an encryption password, and every export subprocess
succeeding, `exportAll` exports the personal vault first and then exactly
the organizations whose role is Owner (0) or Admin (1), in listing order,
skipping every other role, and returns true. -/
theorem C1_export_target_selection (s : String) (env : ExportEnv)
    (dir_path format : String) (pw : Option String)
    (hdir : env.dirOk = true) (horgs : env.orgsCode = 0)
    (hfmt : validFormat format = true)
    (hpw : ¬ (format = "encrypted_json" ∧ pw = none))
    (hok : ∀ t, env.exportOk t = true) :
    exportAll (some s) env dir_path format pw =
      (.ok true,
        { path := dir_path ++ "/" ++ (env.userEmail ++ "-" ++ env.timeStr ++
            "." ++ format),
          orgId := none } ::
          (env.orgs.filter
              (fun o => o.otype = ownerType ∨ o.otype = adminType)).map
            (fun o =>
              { path := dir_path ++ "/" ++ (env.userEmail ++ "-" ++ o.name ++
                  "-" ++ env.timeStr ++ "." ++ format),
                orgId := some o.oid })) := by
  simp [exportAll, exportPersonalVault, hdir, horgs, hfmt, hpw, hok,
    exportOrgsLoop_all_ok s env dir_path format pw hfmt hpw hok]

/-- C1 witness: the spec's example — organizations with roles
[Owner, User, Admin] — exports the personal vault plus exactly the Owner
and the Admin organization, in that order. -/
theorem C1_export_target_selection_witness :
    (exportAll (some "tok")
        { dirOk := true, userEmail := "a@b.com", timeStr := "20260101-0101",
          orgsCode := 0,
          orgs := [{ oid := "o1", name := "OwnerOrg", ostatus := 2,
                     otype := 0, enabled := true },
                   { oid := "o2", name := "UserOrg", ostatus := 2,
                     otype := 2, enabled := true },
                   { oid := "o3", name := "AdminOrg", ostatus := 2,
                     otype := 1, enabled := true }],
          exportOk := fun _ => true } "backups" "json" none).2.map
        (fun c => c.orgId) = [none, some "o1", some "o3"] := by
  rw [C1_export_target_selection "tok"
    { dirOk := true, userEmail := "a@b.com", timeStr := "20260101-0101",
      orgsCode := 0,
      orgs := [{ oid := "o1", name := "OwnerOrg", ostatus := 2,
                 otype := 0, enabled := true },
               { oid := "o2", name := "UserOrg", ostatus := 2,
                 otype := 2, enabled := true },
               { oid := "o3", name := "AdminOrg", ostatus := 2,
                 otype := 1, enabled := true }],
      exportOk := fun _ => true } "backups" "json" none rfl rfl (by decide)
    (by simp) (fun _ => rfl)]
  decide

lemma exportPersonalVault_calls (sess : Option String)
    (ok : Option String → Bool) (path format : String) (pw : Option String) :
    (exportPersonalVault sess ok path format pw).2 = [] ∨
      (exportPersonalVault sess ok path format pw).2 =
        [{ path := path, orgId := none }] := by
  unfold exportPersonalVault
  rcases sess with _ | s
  · exact Or.inl rfl
  · by_cases hv : validFormat format
    · by_cases hp : format = "encrypted_json" ∧ pw = none
      · obtain ⟨rfl, rfl⟩ := hp
        have hv' : validFormat "encrypted_json" = true := by decide
        simp [hv']
      · simp [hv, hp]
    · simp [hv]

lemma exportCollections_calls (sess : Option String)
    (ok : Option String → Bool) (path oid format : String)
    (pw : Option String) :
    (exportCollections sess ok path oid format pw).2 = [] ∨
      (exportCollections sess ok path oid format pw).2 =
        [{ path := path, orgId := some oid }] := by
  unfold exportCollections
  rcases sess with _ | s
  · exact Or.inl rfl
  · by_cases hv : validFormat format
    · by_cases hp : format = "encrypted_json" ∧ pw = none
      · obtain ⟨rfl, rfl⟩ := hp
        have hv' : validFormat "encrypted_json" = true := by decide
        simp [hv']
      · simp [hv, hp]
    · simp [hv]

lemma exportOrgsLoop_path_shape (sess : Option String) (env : ExportEnv)
    (dir_path format : String) (pw : Option String) :
    ∀ os : List Org,
      ∀ c ∈ (exportOrgsLoop sess env dir_path format pw os).2,
        ∃ p, c.path = p ++ ("." ++ format) := by
  intro os
  induction os with
  | nil => intro c hc; simp [exportOrgsLoop] at hc
  | cons o os ih =>
    intro c hc
    unfold exportOrgsLoop at hc
    by_cases hrole : o.otype = ownerType ∨ o.otype = adminType
    · rw [if_neg (not_not_intro hrole)] at hc
      rcases hmatch : exportCollections sess env.exportOk
          (dir_path ++ "/" ++ (env.userEmail ++ "-" ++ o.name ++ "-" ++
            env.timeStr ++ "." ++ format)) o.oid format pw with ⟨r, cs⟩
      have hcs := exportCollections_calls sess env.exportOk
        (dir_path ++ "/" ++ (env.userEmail ++ "-" ++ o.name ++ "-" ++
          env.timeStr ++ "." ++ format)) o.oid format pw
      rw [hmatch] at hc hcs
      simp only [] at hcs
      have hmem : c ∈ cs ∨
          c ∈ (exportOrgsLoop sess env dir_path format pw os).2 := by
        rcases r with e' | b
        · simp only [] at hc
          exact Or.inl hc
        · cases b
          · simp only [] at hc
            exact Or.inl hc
          · simp only [] at hc
            exact (List.mem_append).mp hc
      rcases hmem with hin | hin
      · rcases hcs with hcs | hcs
        · rw [hcs] at hin
          simp at hin
        · rw [hcs] at hin
          rw [List.mem_singleton] at hin
          subst hin
          refine ⟨dir_path ++ "/" ++ (env.userEmail ++ "-" ++ o.name ++
            "-" ++ env.timeStr), ?_⟩
          simp [String.append_assoc]
      · exact ih c hin
    · rw [if_pos hrole] at hc
      exact ih c hc

/-- C6 (amended) — every export file path produced by `exportAll` ends in
`"." ++ format`, the format string itself serving as the extension: `.json`
for json, `.csv` for csv, and `.encrypted_json` (not `.json`) for
encrypted_json. -/
theorem C6_extension_is_format (sess : Option String) (env : ExportEnv)
    (dir_path format : String) (pw : Option String) (c : ExportCall)
    (hc : c ∈ (exportAll sess env dir_path format pw).2) :
    ∃ p, c.path = p ++ ("." ++ format) := by
  unfold exportAll at hc
  rcases sess with _ | s
  · simp at hc
  · by_cases hdir : env.dirOk
    · rw [if_neg (not_not_intro hdir)] at hc
      rcases hmatch : exportPersonalVault (some s) env.exportOk
          (dir_path ++ "/" ++ (env.userEmail ++ "-" ++ env.timeStr ++ "." ++
            format)) format pw with ⟨r, cs⟩
      have hcs := exportPersonalVault_calls (some s) env.exportOk
        (dir_path ++ "/" ++ (env.userEmail ++ "-" ++ env.timeStr ++ "." ++
          format)) format pw
      rw [hmatch] at hc hcs
      simp only [] at hcs
      have hmem : c ∈ cs ∨
          c ∈ (exportOrgsLoop (some s) env dir_path format pw
            (if env.orgsCode = 0 then env.orgs else [])).2 := by
        rcases r with e' | b
        · simp only [] at hc
          exact Or.inl hc
        · cases b
          · simp only [] at hc
            exact Or.inl hc
          · simp only [] at hc
            exact (List.mem_append).mp hc
      rcases hmem with hin | hin
      · rcases hcs with hcs | hcs
        · rw [hcs] at hin
          simp at hin
        · rw [hcs] at hin
          rw [List.mem_singleton] at hin
          subst hin
          refine ⟨dir_path ++ "/" ++ (env.userEmail ++ "-" ++ env.timeStr),
            ?_⟩
          simp [String.append_assoc]
      · exact exportOrgsLoop_path_shape (some s) env dir_path format pw _
          c hin
    · rw [if_pos hdir] at hc
      simp at hc

/-- C6 witness: a concrete json export; the produced personal-vault path
ends in `.json`. -/
theorem C6_extension_is_format_witness :
    ∃ p, ({ path := "d/a@b-20260101-0101.json", orgId := none } :
      ExportCall).path = p ++ ("." ++ "json") :=
  C6_extension_is_format (some "tok")
    { dirOk := true, userEmail := "a@b", timeStr := "20260101-0101",
      orgsCode := 0, orgs := [], exportOk := fun _ => true }
    "d" "json" none { path := "d/a@b-20260101-0101.json", orgId := none }
    (by decide)

/-- C6 — counterexample: an `encrypted_json` export writes a file whose
path ends in `.encrypted_json`, not `.json` as the claim states. -/
theorem C6_counterexample :
    (exportAll (some "tok")
        { dirOk := true, userEmail := "a@b", timeStr := "20260101-0101",
          orgsCode := 0, orgs := [], exportOk := fun _ => true }
        "d" "encrypted_json" (some "pw")).2 =
      [{ path := "d/a@b-20260101-0101.encrypted_json", orgId := none }] ∧
      endsWithStr ".json" "d/a@b-20260101-0101.encrypted_json" = false ∧
      endsWithStr ".encrypted_json" "d/a@b-20260101-0101.encrypted_json" =
        true := by
  refine ⟨?_, ?_, ?_⟩ <;> decide

end Pywarden
